import Mathlib

/-!
Verification of the RTT chart-analysis application.

The modeled source files are: `api.ts` (`analyzeChart`), `index.ts`
(`handleImageFile`, `performAnalysis`, event wiring), `state.ts`
(`AppState`, `getState`/`setState`), `utils.ts` (`getPrompt`,
`fileToGenerativePart`), `ui.ts` (`displayAnalysis`, `setLanguage`,
visibility helpers) and `translations.ts` (translation table).

JavaScript strings are modeled as `List Char`; `undefined`/`null`
property accesses are modeled with `Option`; thrown exceptions are
modeled with `Except`.  The external model call and DOM are abstracted:
the outcome of the awaited call is a parameter, and DOM mutations are
recorded as an explicit effect trace.
-/

namespace RTT

/-- JavaScript strings, modeled as lists of UTF-16-ish characters. -/
abbrev Str := List Char

/-- Coerce a Lean string literal to the `Str` model. -/
def lc (s : String) : Str := s.data

/-- The character `\x7b` (opening curly brace). -/
def lbrace : Char := Char.ofNat 123

/-- The character `\x7d` (closing curly brace). -/
def rbrace : Char := Char.ofNat 125

/-- `startsWith needle hay`: `hay` begins with `needle`. -/
def startsWith : Str → Str → Bool
  | [], _ => true
  | _ :: _, [] => false
  | a :: as, b :: bs => a = b && startsWith as bs

/-- JavaScript `hay.includes(needle)`: substring containment. -/
def containsSub (needle : Str) : Str → Bool
  | [] => startsWith needle []
  | c :: t => startsWith needle (c :: t) || containsSub needle t

/-- The suffix of `hay` after the first occurrence of `sep`
(`none` when `sep` does not occur). -/
def afterFirst (sep : Str) : Str → Option Str
  | [] => if startsWith sep [] then some [] else none
  | c :: t =>
    if startsWith sep (c :: t) then some ((c :: t).drop sep.length)
    else afterFirst sep t

/-- The prefix of `hay` before the first occurrence of `sep`
(all of `hay` when `sep` does not occur). -/
def beforeFirst (sep : Str) : Str → Str
  | [] => []
  | c :: t =>
    if startsWith sep (c :: t) then []
    else c :: beforeFirst sep t

/-- JavaScript `hay.split(sep)[1] || ''` for a non-empty separator:
the segment between the first and second occurrence of `sep`. -/
def jsSplitSecond (sep hay : Str) : Str :=
  match afterFirst sep hay with
  | none => []
  | some rest => beforeFirst sep rest

/-- JavaScript `s.indexOf(c)`, with `-1` modeled as `none`. -/
def indexOfChar (c : Char) : Str → Option Nat
  | [] => none
  | x :: xs => if x = c then some 0 else (indexOfChar c xs).map (· + 1)

/-- JavaScript `s.lastIndexOf(c)`, with `-1` modeled as `none`. -/
def lastIndexOfChar (c : Char) (cs : Str) : Option Nat :=
  (indexOfChar c cs.reverse).map (fun i => cs.length - 1 - i)

/-- The error thrown by `analyzeChart` when no brace-delimited JSON
object is found; it carries the raw response text
(`"... The response was: " + jsonString`). -/
structure NoJsonFoundError where
  raw : Str
deriving DecidableEq

/-- The JSON-extraction step of `analyzeChart` (api.ts lines 41-51):
take the first `\x7b` and the last `\x7d` of the raw response text,
fail when either is absent or the last `\x7d` precedes the first
`\x7b`, and otherwise slice the substring inclusive of both braces
(the slice is what `JSON.parse` is then applied to). -/
def extractJson (raw : Str) : Except NoJsonFoundError Str :=
  match indexOfChar lbrace raw, lastIndexOfChar rbrace raw with
  | some f, some l =>
    if l < f then Except.error ⟨raw⟩
    else Except.ok ((raw.drop f).take (l + 1 - f))
  | _, _ => Except.error ⟨raw⟩

/-- A JSON value as produced by `JSON.parse` (arrays are not consulted
by any of the modeled code and are omitted). -/
inductive JVal where
  | jnull
  | jbool (b : Bool)
  | jnum (n : Int)
  | jstr (s : Str)
  | jobj (entries : List (String × JVal))

/-- First-match lookup of a property name in an object's entry list. -/
def lookupProp : List (String × JVal) → String → Option JVal
  | [], _ => none
  | (k', v) :: t, k => if k' = k then some v else lookupProp t k

/-- JavaScript property access `v[k]`: `undefined` (`none`) on
anything but an object carrying the key.  In particular indexing a
string by a non-numeric key yields `undefined`. -/
def JVal.getProp : JVal → String → Option JVal
  | JVal.jobj es, k => lookupProp es k
  | _, _ => none

/-- JavaScript truthiness of a JSON value: `null`, `false`, `0` and
the empty string are falsy. -/
def truthyJ : JVal → Bool
  | JVal.jnull => false
  | JVal.jbool b => b
  | JVal.jnum n => n ≠ 0
  | JVal.jstr s => s ≠ []
  | JVal.jobj _ => true

/-- JavaScript `a || b` over possibly-`undefined` JSON values. -/
def jsOr (a b : Option JVal) : Option JVal :=
  match a with
  | some v => if truthyJ v then some v else b
  | none => b

/-- `{ data, mimeType }`, the encoded image payload produced by
`fileToGenerativePart`. -/
structure EncodedImage where
  data : Str
  mimeType : Str
deriving DecidableEq

/-- The value of a successful `analyzeChart` call:
`{ json: any, groundingSources: any[] }`. -/
structure AnalysisResult where
  json : JVal
  groundingSources : List JVal

/-- The two UI languages (`'en' | 'bg'`). -/
inductive Lang where
  | en
  | bg
deriving DecidableEq

/-- The language's key string, as used to index translatable JSON
fields (`parsedJson[key][currentLanguage]`). -/
def langKey : Lang → String
  | Lang.en => "en"
  | Lang.bg => "bg"

/-- The application state of state.ts. -/
structure AppState where
  selectedImage : Option EncodedImage
  currentLanguage : Lang
  analysisData : Option AnalysisResult
  cachedPrompt : Option Str

/-- The translation table of translations.ts, restricted to the keys
consulted by the modeled code (result labels, source label and error
messages); the values are verbatim from the source. -/
def translations (lang : Lang) (key : String) : Str :=
  match lang with
  | Lang.en =>
    if key = "pattern" then lc "Pattern Identified"
    else if key = "signal" then lc "Signal"
    else if key = "profit-prob" then lc "Profit Probability"
    else if key = "confirm-indicators" then lc "Suggested Confirmation Indicators"
    else if key = "take-profit" then lc "Take Profit"
    else if key = "stop-loss" then lc "Stop Loss"
    else if key = "tp-timeframe" then lc "Take Profit Timeframe"
    else if key = "trading-advice" then lc "Trading Advice"
    else if key = "summary" then lc "Summary"
    else if key = "info-sources" then lc "Information Sources"
    else if key = "error-unexpected" then lc "An unexpected error occurred. Please check the console for details."
    else if key = "error-api-key" then lc "Your API key is not valid. Please check your configuration."
    else if key = "error-400" then lc "The request was malformed. The provided image might be invalid, or the model could not return valid JSON."
    else if key = "error-json" then lc "Could not find a valid JSON object in the model's response. The response was: "
    else []
  | Lang.bg =>
    if key = "pattern" then lc "Идентифициран Патерн"
    else if key = "signal" then lc "Сигнал"
    else if key = "profit-prob" then lc "Вероятност за печалба"
    else if key = "confirm-indicators" then lc "Предложени индикатори за потвърждение"
    else if key = "take-profit" then lc "Вземане на печалба"
    else if key = "stop-loss" then lc "Стоп на загуба"
    else if key = "tp-timeframe" then lc "Времева рамка за печалба"
    else if key = "trading-advice" then lc "Търговски съвет"
    else if key = "summary" then lc "Обобщение"
    else if key = "info-sources" then lc "Източници на информация"
    else if key = "error-unexpected" then lc "Възникна неочаквана грешка. Моля, проверете конзолата за подробности."
    else if key = "error-api-key" then lc "Вашият API ключ не е валиден. Моля, проверете конфигурацията си."
    else if key = "error-400" then lc "Заявката беше неправилно оформена. Предоставеното изображение може да е невалидно или моделът не можа да върне валиден JSON."
    else if key = "error-json" then lc "В отговора на модела не можа да бъде намерен валиден JSON обект. Отговорът беше: "
    else []

/-- `filter(Boolean)` applied pointwise: keep a value only when it is
present and truthy. -/
def keepTruthy : Option JVal → Option JVal
  | none => none
  | some v => if truthyJ v then some v else none

/-- The grounding-source extraction of `analyzeChart` (api.ts lines
53-57): `groundingChunks?.map(chunk => chunk.web).filter(Boolean) || []`.
`none` models an absent `groundingChunks`. -/
def groundingSourcesOf (groundingChunks : Option (List JVal)) : List JVal :=
  match groundingChunks with
  | none => []
  | some chunks =>
    (chunks.map (fun c => c.getProp "web")).filterMap keepTruthy

/-- A JavaScript value that is either a string or a pending promise of
a string (needed because index.ts passes the un-awaited result of
`getPrompt()` where a string is expected). -/
inductive JsStr where
  | str (s : Str)
  | promiseStr (resolved : Str)
deriving DecidableEq

/-- JavaScript string coercion inside a template literal: a promise
object stringifies as `"[object Promise]"`. -/
def jsCoerceTemplate : JsStr → Str
  | JsStr.str s => s
  | JsStr.promiseStr _ => lc "[object Promise]"

/-- The prompt composition inside `analyzeChart` (api.ts lines 24-27):
`fullPrompt = basePrompt`, overridden when the trimmed user description
is non-empty by the template
`User-provided context: "${userDescription}"\n\n${basePrompt}`.
The `basePrompt` argument is a `JsStr` because index.ts actually passes
a promise (see `performAnalysisPromptArg`). -/
def analyzeChartFullPrompt (basePrompt : JsStr) (userDescription : Str) : JsStr :=
  if userDescription ≠ [] then
    JsStr.str (lc "User-provided context: \"" ++ userDescription ++ lc "\"\n\n"
      ++ jsCoerceTemplate basePrompt)
  else basePrompt

/-- The `basePrompt` argument that `performAnalysis` (index.ts line 61)
passes to `analyzeChart`: `const basePrompt = getPrompt();` lacks an
`await`, so the argument is the pending promise of the composed prompt
text, not the text itself. -/
def performAnalysisPromptArg (composedPromptText : Str) : JsStr :=
  JsStr.promiseStr composedPromptText

/-- The per-field part of `getValue`: `null` when the field is absent
or falsy; for translatable fields
`parsedJson[key][currentLanguage] || parsedJson[key]['en'] || null`;
otherwise the field itself. -/
def getValueField (lang : Lang) (translatable : Bool) : Option JVal → Option JVal
  | none => none
  | some v =>
    if truthyJ v = false then none
    else if translatable then
      jsOr (v.getProp (langKey lang)) (jsOr (v.getProp "en") none)
    else some v

/-- `getValue` inside `displayAnalysis` (ui.ts lines 40-46):
`null` when the parsed JSON or the field is falsy, otherwise the
field's resolved value. -/
def getValue (parsedJson : JVal) (lang : Lang) (key : String)
    (translatable : Bool) : Option JVal :=
  if truthyJ parsedJson = false then none
  else getValueField lang translatable (parsedJson.getProp key)

/-- The label-key/json-key/translatable triples of the `analysisItems`
object built by `displayAnalysis` (ui.ts lines 48-58), in source
order. -/
def analysisItemKeys : List (String × String × Bool) :=
  [("pattern", "patternName", true),
   ("signal", "signal", true),
   ("profit-prob", "profitProbability", false),
   ("confirm-indicators", "confirmationIndicators", true),
   ("take-profit", "takeProfitLevel", false),
   ("stop-loss", "stopLossLevel", false),
   ("tp-timeframe", "takeProfitTimeframe", false),
   ("trading-advice", "tradingAdvice", true),
   ("summary", "summary", true)]

/-- The labeled rows rendered by `displayAnalysis` (ui.ts lines 60-69):
one row per analysis item whose resolved value is truthy, labeled with
the active language's translation. -/
def displayAnalysisRows (analysisData : Option AnalysisResult) (lang : Lang) :
    List (Str × JVal) :=
  match analysisData with
  | none => []
  | some r =>
    analysisItemKeys.filterMap (fun it =>
      (getValue r.json lang it.2.1 it.2.2).map
        (fun v => (translations lang it.1, v)))

/-- The grounding sources that produce a link in the sources list of
`displayAnalysis` (ui.ts lines 74-77):
`source && source.uri ? <li>...</li> : ''`. -/
def renderedSources (sources : List JVal) : List JVal :=
  sources.filter (fun s =>
    truthyJ s && (match s.getProp "uri" with
      | some u => truthyJ u
      | none => false))

/-- DOM and network side effects of the modeled operations, in
execution order. -/
inductive Effect where
  | showLoader
  | hideLoader
  | showResults
  | hideResults
  | hideError
  | disableAnalyze
  | enableAnalyze
  | retranslateDom (lang : Lang)
  | showError (msg : Str)
  | modelRequest (text : Str) (image : EncodedImage)
  | render (rows : List (Str × JVal))

/-- `setLanguage` (ui.ts lines 89-105): store the new language,
retranslate the static DOM strings, and re-render the stored analysis
from state via `displayAnalysis` — no model request is made. -/
def setLanguageOp (lang : Lang) (s : AppState) : AppState × List Effect :=
  let s' := { s with currentLanguage := lang }
  (s', [Effect.retranslateDom lang,
        Effect.render (displayAnalysisRows s'.analysisData lang)])

/-- The state effect of `handleImageFile` (index.ts lines 18-39) once
the file has been encoded:
`setState({ selectedImage: generativePart, analysisData: null })`. -/
def handleImageFileOp (s : AppState) (generativePart : EncodedImage) : AppState :=
  { s with selectedImage := some generativePart, analysisData := none }

/-- The error-message mapping of the `catch` block of `performAnalysis`
(index.ts lines 91-104), for errors that are `Error` instances with
message `m`. -/
def errorMessage (lang : Lang) (m : Str) : Str :=
  if containsSub (lc "API key not valid") m then translations lang "error-api-key"
  else if containsSub (lc "400") m then translations lang "error-400"
  else if containsSub (lc "Could not find a valid JSON object") m then
    translations lang "error-json" ++ jsSplitSecond (lc "The response was: ") m
  else m

/-- The outcome of the awaited part of the `try` block of one
analysis attempt: an error thrown inside the block before the model
call, an error thrown by the awaited call or by extraction/parsing
after the request was sent, or a successful result.  Errors carry the
`Error` message.  A `getPrompt` failure is NOT among these outcomes:
`const basePrompt = getPrompt();` (index.ts line 61) is not awaited,
so its rejection bypasses the `try`/`catch` entirely as a detached
unhandled rejection — see `performAnalysisRun`. -/
inductive AttemptOutcome where
  | preRequestError (msg : Str)
  | callError (text : Str) (msg : Str)
  | callSuccess (text : Str) (r : AnalysisResult)

/-- The reset at the start of an analysis attempt (index.ts lines
53-58), before any request is sent: show the loader, hide results and
errors, disable the analyze control, clear `analysisData`. -/
def attemptStart (s : AppState) : AppState × List Effect :=
  ({ s with analysisData := none },
   [Effect.showLoader, Effect.hideResults, Effect.hideError,
    Effect.disableAnalyze])

/-- `performAnalysis` (index.ts lines 45-110): no-op without a selected
image; otherwise the attempt reset, the try block (abstracted by the
outcome of its awaited part, see `AttemptOutcome`), the catch block
mapping errors to a displayed message, and the finally block hiding
the loader and re-enabling the control.  The detached promise created
by the un-awaited `getPrompt()` is modeled by `performAnalysisRun`. -/
def performAnalysisOp (s : AppState) (outcome : AttemptOutcome) :
    AppState × List Effect :=
  match s.selectedImage with
  | none => (s, [])
  | some img =>
    let s1 := (attemptStart s).1
    let pre := (attemptStart s).2
    let fin := [Effect.hideLoader, Effect.enableAnalyze]
    match outcome with
    | AttemptOutcome.preRequestError m =>
      (s1, pre ++ [Effect.showError (errorMessage s1.currentLanguage m)] ++ fin)
    | AttemptOutcome.callError text m =>
      (s1, pre ++ [Effect.modelRequest text img,
        Effect.showError (errorMessage s1.currentLanguage m)] ++ fin)
    | AttemptOutcome.callSuccess text r =>
      let s2 := { s1 with analysisData := some r }
      (s2, pre ++ [Effect.modelRequest text img,
        Effect.render (displayAnalysisRows s2.analysisData s2.currentLanguage),
        Effect.showResults] ++ fin)

/-- The possible outcomes of the awaited `analyzeChart` call. -/
inductive CallOutcome where
  | threw (msg : Str)
  | returned (r : AnalysisResult)

/-- One full `performAnalysis` attempt as the code is written
(index.ts lines 45-110), including the un-awaited `getPrompt()`:
`const basePrompt = getPrompt();` creates a detached promise whose
eventual outcome is the `promptOutcome` argument.  A rejection of that
promise never reaches the `try`/`catch` — it is recorded in the
returned list of unhandled promise rejections and produces no
effect — and the attempt proceeds regardless, sending the request
whose text part is the JS string coercion of the promise-based prompt
(`analyzeChartFullPrompt`; the promise's payload is irrelevant to the
coercion, so a rejected promise uses an empty placeholder, and with an
empty user description the SDK receives the promise object itself,
abstracted here as its coercion).  Returns the final state, the
effect trace, and the unhandled rejections. -/
def performAnalysisRun (s : AppState) (userDescription : Str)
    (promptOutcome : Except Str Str) (call : CallOutcome) :
    AppState × List Effect × List Str :=
  match s.selectedImage with
  | none => (s, [], [])
  | some img =>
    let s1 := (attemptStart s).1
    let pre := (attemptStart s).2
    let fin := [Effect.hideLoader, Effect.enableAnalyze]
    let unhandled : List Str :=
      match promptOutcome with
      | Except.error e => [e]
      | Except.ok _ => []
    let text := jsCoerceTemplate (analyzeChartFullPrompt
      (JsStr.promiseStr (match promptOutcome with
        | Except.ok p => p
        | Except.error _ => [])) userDescription)
    match call with
    | CallOutcome.threw m =>
      (s1, pre ++ [Effect.modelRequest text img,
        Effect.showError (errorMessage s1.currentLanguage m)] ++ fin,
       unhandled)
    | CallOutcome.returned r =>
      let s2 := { s1 with analysisData := some r }
      (s2, pre ++ [Effect.modelRequest text img,
        Effect.render (displayAnalysisRows s2.analysisData s2.currentLanguage),
        Effect.showResults] ++ fin,
       unhandled)

/-- JavaScript `s.trim()`: strip whitespace from both ends. -/
def trimStr (s : Str) : Str :=
  ((s.dropWhile Char.isWhitespace).reverse.dropWhile Char.isWhitespace).reverse

/-- The hardcoded base prompt of `getPrompt` (utils.ts lines 44-77),
verbatim (curly braces written with character escapes). -/
def basePromptText : Str := lc "You are a professional trading analyst specializing in short-term (intraday and daily) technical and fundamental analysis. Your task is to analyze an image of a candlestick chart.\n\n**Part 1: Technical Analysis (Visual)**\n- Based on the expert knowledge provided in the JSON and CSV data below, identify the primary candlestick pattern in the provided image.\n- Suggest 2-3 additional technical indicators (e.g., RSI, MACD, Moving Averages) that could confirm the identified pattern's signal. Briefly explain why each would be useful for this pattern.\n\n**Part 2: Fundamental Analysis (News)**\n- Identify the stock/crypto symbol from the image or from the user-provided context.\n- Use Google Search to find relevant, breaking news from the last 12-24 hours from verified, reputable financial news outlets.\n- Analyze the sentiment of the news (positive, negative, neutral).\n\n**Part 3: Synthesize and Output for Short-Term Trading**\n- Combine your visual technical analysis and fundamental news analysis to provide a comprehensive trading recommendation specifically for **short-term (intraday to 3-day) trading strategies**.\n- The news sentiment should adjust the profit probability and trading advice for this short-term context.\n- The `takeProfitLevel`, `stopLossLevel`, and `takeProfitTimeframe` (e.g., '15-60 minutes', '1-4 hours') must be appropriate for day trading or swing trading over a few days.\n- Provide your complete analysis in a single, raw JSON object. **Do not wrap it in markdown backticks or add any other text before or after the JSON.**\n\nThe JSON object must have the following structure. For fields requiring translation, provide an object with \"en\" and \"bg\" keys.\n\n- patternName: \x7b\"en\": \"English Pattern Name\", \"bg\": \"Bulgarian Pattern Name\"\x7d\n- signal: \x7b\"en\": \"Buy\" | \"Sell\" | \"Neutral\", \"bg\": \"Купува\" | \"Продава\" | \"Неутрален\"\x7d\n- profitProbability: A success rate percentage range (e.g., \"55-72%\"). This is a string and does not need translation.\n- confirmationIndicators: \x7b\"en\": \"English indicator advice\", \"bg\": \"Bulgarian indicator advice\"\x7d\n- takeProfitLevel: Suggested take profit price (string, no translation).\n- stopLossLevel: Suggested stop loss price (string, no translation).\n- takeProfitTimeframe: Suggested timeframe (e.g., \"15-60 minutes\") (string, no translation).\n- tradingAdvice: \x7b\"en\": \"English trading advice\", \"bg\": \"Bulgarian trading advice\"\x7d\n- summary: \x7b\"en\": \"English summary\", \"bg\": \"Bulgarian summary\"\x7d\n\nAnalyze the provided chart image and return ONLY the raw JSON object string. Ensure the specified fields are translated into both English and Bulgarian as shown in the structure above."

/-- The prompt composition of `getPrompt` (utils.ts lines 89-105):
the base prompt followed by the two fetched knowledge-base fragments
inside fixed delimiter lines, trimmed. -/
def composeFullPrompt (jsonRules csvData : Str) : Str :=
  trimStr (lc "\n" ++ basePromptText
    ++ lc "\n\nHere is the expert knowledge base you must use for your analysis. Prioritize this information over your general knowledge.\n\n--- START OF JSON KNOWLEDGE BASE ---\n"
    ++ jsonRules
    ++ lc "\n--- END OF JSON KNOWLEDGE BASE ---\n\n--- START OF CSV KNOWLEDGE BASE (Flashcard format) ---\n"
    ++ csvData
    ++ lc "\n--- END OF CSV KNOWLEDGE BASE ---\n\nNow, analyze the provided chart image based on these rules and return ONLY the raw JSON object string as requested in the instructions above.\n")

/-- A fetch response as consulted by `getPrompt`: its `ok` status and
its text body. -/
structure FetchResult where
  ok : Bool
  body : Str

/-- The two resources `getPrompt` fetches on a call:
`./application/json` and `./candlestick_data.csv`. -/
structure PromptEnv where
  jsonRes : FetchResult
  csvRes : FetchResult

/-- One call of `getPrompt`: the returned-or-thrown value together
with the number of fetches the call performed. -/
structure PromptCall where
  result : Except Str Str
  fetches : Nat

/-- `getPrompt` (utils.ts lines 43-105): fetch the two knowledge-base
resources (always both, in parallel), throw when either response is
not ok, and otherwise compose the full prompt from the bodies.  The
function has no mutable state, so every call behaves identically; the
body contents are never checked for emptiness. -/
def getPromptRun (env : PromptEnv) : PromptCall :=
  if !env.jsonRes.ok || !env.csvRes.ok then
    ⟨Except.error (lc "Failed to load knowledge base data files."), 2⟩
  else
    ⟨Except.ok (composeFullPrompt env.jsonRes.body env.csvRes.body), 2⟩

/-- A sample encoded image. -/
def sampleImage : EncodedImage := ⟨lc "aGVsbG8=", lc "image/png"⟩

/-- A sample state with an image selected, as required to start an
analysis attempt. -/
def sampleState : AppState := ⟨some sampleImage, Lang.en, none, none⟩

/-- A sample parsed analysis object with a translated pattern name. -/
def sampleJson : JVal :=
  JVal.jobj [("patternName",
    JVal.jobj [("en", JVal.jstr (lc "Hammer")), ("bg", JVal.jstr (lc "Чук"))])]

/-- A sample analysis result stored in state. -/
def sampleResult : AnalysisResult := ⟨sampleJson, []⟩

/-- A parsed object whose translatable field has only an `en` value. -/
def jsonEnOnly : JVal :=
  JVal.jobj [("patternName", JVal.jobj [("en", JVal.jstr (lc "Hammer"))])]

/-- The `en`-only translation object of `jsonEnOnly`. -/
def fieldEnOnly : JVal := JVal.jobj [("en", JVal.jstr (lc "Hammer"))]

/-- A parsed object whose translatable field is a plain string. -/
def jsonPlain : JVal := JVal.jobj [("patternName", JVal.jstr (lc "Hammer"))]

/-- A grounding `web` entry with a uri and a title. -/
def sampleWeb : JVal :=
  JVal.jobj [("uri", JVal.jstr (lc "https://example.com")),
             ("title", JVal.jstr (lc "Example"))]

/-- A grounding-chunk list with one well-formed web chunk. -/
def sampleChunks : List JVal := [JVal.jobj [("web", sampleWeb)]]

/-- A grounding `web` entry lacking a `uri` and carrying a field
beyond `uri`/`title`. -/
def webNoUri : JVal :=
  JVal.jobj [("title", JVal.jstr (lc "Example title")),
             ("vendor", JVal.jstr (lc "extra-field"))]

/-- A grounding chunk whose `web` entry is `webNoUri`. -/
def chunkNoUri : JVal := JVal.jobj [("web", webNoUri)]

/-- A prompt environment where both fetches succeed with empty
bodies. -/
def envOkEmpty : PromptEnv := ⟨⟨true, []⟩, ⟨true, []⟩⟩

/-- A prompt environment where both fetches succeed with non-empty
bodies. -/
def envSample : PromptEnv := ⟨⟨true, lc "RULES"⟩, ⟨true, lc "DATA"⟩⟩

/-- A prompt environment where the first fetch fails. -/
def envFail : PromptEnv := ⟨⟨false, []⟩, ⟨true, lc "DATA"⟩⟩

/-- A credential-failure error message as surfaced by the SDK. -/
def apiKeyErrMsg : Str := lc "API key not valid. Please pass a valid API key."

end RTT

namespace RTT

theorem startsWith_nil (needle : Str) (h : needle ≠ []) :
    startsWith needle [] = false := by
  cases needle with
  | nil => exact absurd rfl h
  | cons a as => rfl

theorem indexOfChar_append_cons (c : Char) (xs ys : Str) (h : c ∉ xs) :
    indexOfChar c (xs ++ c :: ys) = some xs.length := by
  induction xs with
  | nil => simp [indexOfChar]
  | cons x t ih =>
    have hx : ¬ x = c := fun e => h (e ▸ List.mem_cons_self x t)
    have ht : c ∉ t := fun m => h (List.mem_cons_of_mem _ m)
    simp [indexOfChar, hx, ih ht]

theorem indexOfChar_eq_none (c : Char) (cs : Str) (h : c ∉ cs) :
    indexOfChar c cs = none := by
  induction cs with
  | nil => rfl
  | cons x t ih =>
    have hx : ¬ x = c := fun e => h (e ▸ List.mem_cons_self x t)
    have ht : c ∉ t := fun m => h (List.mem_cons_of_mem _ m)
    simp [indexOfChar, hx, ih ht]

theorem lastIndexOfChar_eq_none (c : Char) (cs : Str) (h : c ∉ cs) :
    lastIndexOfChar c cs = none := by
  have : c ∉ cs.reverse := fun m => h (List.mem_reverse.mp m)
  simp [lastIndexOfChar, indexOfChar_eq_none c cs.reverse this]

/-- Helper: the raw text decomposed around the embedded object,
reassociated so that the first brace and (after reversal) the last
brace are exposed. -/
theorem extract_decomp (pre mid post : Str) :
    pre ++ (lbrace :: mid ++ [rbrace]) ++ post
      = pre ++ lbrace :: (mid ++ [rbrace] ++ post) := by
  simp [List.append_assoc]

theorem indexOfChar_first_lbrace (pre mid post : Str) (hpre : lbrace ∉ pre) :
    indexOfChar lbrace (pre ++ (lbrace :: mid ++ [rbrace]) ++ post)
      = some pre.length := by
  rw [extract_decomp]
  exact indexOfChar_append_cons lbrace pre (mid ++ [rbrace] ++ post) hpre

theorem lastIndexOfChar_last_rbrace (pre mid post : Str)
    (hpost : rbrace ∉ post) :
    lastIndexOfChar rbrace (pre ++ (lbrace :: mid ++ [rbrace]) ++ post)
      = some (pre.length + mid.length + 1) := by
  have hrev : (pre ++ (lbrace :: mid ++ [rbrace]) ++ post).reverse
      = post.reverse ++ rbrace :: (mid.reverse ++ lbrace :: pre.reverse) := by
    simp [List.reverse_append, List.append_assoc]
  have hmem : rbrace ∉ post.reverse := fun m => hpost (List.mem_reverse.mp m)
  have hidx := indexOfChar_append_cons rbrace post.reverse
    (mid.reverse ++ lbrace :: pre.reverse) hmem
  have hlen : (pre ++ (lbrace :: mid ++ [rbrace]) ++ post).length
      = pre.length + (mid.length + 2) + post.length := by
    simp [List.length_append]
    omega
  unfold lastIndexOfChar
  rw [hrev, hidx]
  simp only [Option.map_some', List.length_reverse]
  rw [hlen]
  congr 1
  omega

/-- Claim C1: for every raw response text that is a well-formed JSON
object (a brace-delimited segment) surrounded by prose that is free of
the brace characters, the extraction step of `analyzeChart` returns
exactly the object's text — it slices from the first `\x7b` to the last
`\x7d` inclusive — and therefore parsing the slice is parsing exactly
that object's text, for any parse function. -/
theorem analyzeChart_extract_ok (pre mid post : Str)
    (hpre : lbrace ∉ pre) (hpost : rbrace ∉ post) :
    extractJson (pre ++ (lbrace :: mid ++ [rbrace]) ++ post)
        = Except.ok (lbrace :: mid ++ [rbrace])
      ∧ ∀ parse : Str → Option Nat,
        (extractJson (pre ++ (lbrace :: mid ++ [rbrace]) ++ post)).map parse
          = Except.ok (parse (lbrace :: mid ++ [rbrace])) := by
  have hf := indexOfChar_first_lbrace pre mid post hpre
  have hl := lastIndexOfChar_last_rbrace pre mid post hpost
  have hmain : extractJson (pre ++ (lbrace :: mid ++ [rbrace]) ++ post)
      = Except.ok (lbrace :: mid ++ [rbrace]) := by
    unfold extractJson
    rw [hf, hl]
    have hlt : ¬ (pre.length + mid.length + 1 < pre.length) := by omega
    simp only [hlt, if_false]
    have hdrop : (pre ++ (lbrace :: mid ++ [rbrace]) ++ post).drop pre.length
        = (lbrace :: mid ++ [rbrace]) ++ post := by
      rw [List.append_assoc]
      exact List.drop_left pre ((lbrace :: mid ++ [rbrace]) ++ post)
    rw [hdrop]
    have harith : pre.length + mid.length + 1 + 1 - pre.length
        = (lbrace :: mid ++ [rbrace]).length := by
      simp [List.length_append]
      omega
    rw [harith]
    rw [List.take_left]
  exact ⟨hmain, fun parse => by rw [hmain]; rfl⟩

/-- Claim C1 witness: scenario from the spec, a JSON object surrounded
by prose. -/
theorem analyzeChart_extract_ok_witness :
    lbrace ∉ lc "Sure! " ∧ rbrace ∉ lc " Thanks." ∧
      extractJson (lc "Sure! " ++ (lbrace :: lc "\"patternName\":\"Hammer\"" ++ [rbrace]) ++ lc " Thanks.")
        = Except.ok (lbrace :: lc "\"patternName\":\"Hammer\"" ++ [rbrace]) :=
  ⟨by decide, by decide,
    (analyzeChart_extract_ok (lc "Sure! ") (lc "\"patternName\":\"Hammer\"") (lc " Thanks.")
      (by decide) (by decide)).1⟩

/-- Claim C2: for every raw response text with no `\x7b`, or no `\x7d`,
or whose last `\x7d` precedes its first `\x7b`, the extraction step of
`analyzeChart` throws the no-JSON-found error, and the error carries
the original raw text verbatim. -/
theorem analyzeChart_extract_error (raw : Str)
    (h : lbrace ∉ raw ∨ rbrace ∉ raw ∨
      ∃ f l, indexOfChar lbrace raw = some f ∧
        lastIndexOfChar rbrace raw = some l ∧ l < f) :
    extractJson raw = Except.error ⟨raw⟩ := by
  rcases h with h1 | h2 | ⟨f, l, hf, hl, hlt⟩
  · unfold extractJson
    rw [indexOfChar_eq_none lbrace raw h1]
  · unfold extractJson
    rw [lastIndexOfChar_eq_none rbrace raw h2]
    cases indexOfChar lbrace raw <;> rfl
  · unfold extractJson
    rw [hf, hl]
    simp [hlt]

/-- Claim C2 witness: scenario from the spec, a reply with no JSON. -/
theorem analyzeChart_extract_error_witness :
    extractJson (lc "no json here") = Except.error ⟨lc "no json here"⟩ :=
  analyzeChart_extract_error (lc "no json here") (Or.inl (by decide))

/-- Claim C3 is contradicted by the code: `performAnalysis`
(index.ts line 61) runs `const basePrompt = getPrompt();` without
`await`, so `analyzeChart` receives the pending promise where its
declared `string` parameter expects the composed prompt text.  With a
non-empty user context the text part of the request is the context
annotation followed by the template coercion `"[object Promise]"`, not
the composed prompt; with an empty context the text part is the
promise object itself.  This theorem evaluates the modeled wiring at a
concrete composed prompt and context. -/
theorem performAnalysis_prompt_bug :
    analyzeChartFullPrompt (performAnalysisPromptArg (lc "BASE PROMPT")) (lc "ctx")
        = JsStr.str (lc "User-provided context: \"ctx\"\n\n[object Promise]")
      ∧ analyzeChartFullPrompt (performAnalysisPromptArg (lc "BASE PROMPT")) (lc "ctx")
        ≠ JsStr.str (lc "User-provided context: \"ctx\"\n\nBASE PROMPT")
      ∧ analyzeChartFullPrompt (performAnalysisPromptArg (lc "BASE PROMPT")) []
        = JsStr.promiseStr (lc "BASE PROMPT") := by
  refine ⟨by decide, by decide, by decide⟩

/-- Claim C4: the stored `analysisData` is cleared by the reset at the
start of every analysis attempt (before any request), cleared when a
new image is selected, left cleared by a failed attempt (whether the
error arose before or after the request), assigned exactly the result
after a successful extraction, and untouched by a language switch. -/
theorem analysisData_lifecycle (s : AppState) (img : EncodedImage)
    (m text : Str) (r : AnalysisResult) (h : s.selectedImage = some img) :
    (handleImageFileOp s img).analysisData = none ∧
    ((attemptStart s).1).analysisData = none ∧
    ((performAnalysisOp s (AttemptOutcome.preRequestError m)).1).analysisData = none ∧
    ((performAnalysisOp s (AttemptOutcome.callError text m)).1).analysisData = none ∧
    ((performAnalysisOp s (AttemptOutcome.callSuccess text r)).1).analysisData = some r ∧
    ((setLanguageOp s.currentLanguage s).1).analysisData = s.analysisData := by
  refine ⟨rfl, rfl, ?_, ?_, ?_, rfl⟩ <;>
    simp [performAnalysisOp, attemptStart, h]

/-- Claim C4 witness: the lifecycle at a concrete state with an image
selected. -/
theorem analysisData_lifecycle_witness :
    (handleImageFileOp sampleState sampleImage).analysisData = none ∧
    ((attemptStart sampleState).1).analysisData = none ∧
    ((performAnalysisOp sampleState (AttemptOutcome.preRequestError (lc "boom"))).1).analysisData = none ∧
    ((performAnalysisOp sampleState (AttemptOutcome.callError (lc "T") (lc "boom"))).1).analysisData = none ∧
    ((performAnalysisOp sampleState (AttemptOutcome.callSuccess (lc "T") sampleResult)).1).analysisData = some sampleResult ∧
    ((setLanguageOp sampleState.currentLanguage sampleState).1).analysisData = sampleState.analysisData :=
  analysisData_lifecycle sampleState sampleImage (lc "boom") (lc "T") sampleResult rfl

/-- Claim C7 is contradicted by the code: `getPrompt` in utils.ts has
no mutable state and fetches both knowledge-base resources on every
call, so the second of two consecutive successful calls performs two
fetches, not zero; nothing in the program reads or writes the
`cachedPrompt` state field. -/
theorem getPrompt_refetches :
    (getPromptRun envSample).fetches = 2 ∧
      ¬ (getPromptRun envSample).fetches = 0 := by
  refine ⟨rfl, by decide⟩

/-- Claim C7 amended: `getPrompt` performs its two fetches on every
call (it is stateless, so consecutive calls against the same resources
return the same composed text but the second call fetches again), and
the `cachedPrompt` field of the application state is never read or
written by any modeled operation. -/
theorem getPrompt_no_caching (env : PromptEnv) (s : AppState) (lang : Lang)
    (img : EncodedImage) (out : AttemptOutcome) :
    (getPromptRun env).fetches = 2 ∧
    ((setLanguageOp lang s).1).cachedPrompt = s.cachedPrompt ∧
    (handleImageFileOp s img).cachedPrompt = s.cachedPrompt ∧
    ((performAnalysisOp s out).1).cachedPrompt = s.cachedPrompt := by
  refine ⟨?_, rfl, rfl, ?_⟩
  · unfold getPromptRun
    split <;> rfl
  · unfold performAnalysisOp
    cases s.selectedImage with
    | none => rfl
    | some img' => cases out <;> simp [attemptStart]

/-- Claim C8 is contradicted by the code: `getPrompt` only checks the
`ok` status of the two fetch responses; a fragment retrieved
successfully with empty content is accepted, and the prompt is
composed with the empty fragment instead of the attempt failing. -/
theorem getPrompt_accepts_empty_fragments :
    envOkEmpty.jsonRes.ok = true ∧ envOkEmpty.jsonRes.body = [] ∧
    envOkEmpty.csvRes.ok = true ∧ envOkEmpty.csvRes.body = [] ∧
    (getPromptRun envOkEmpty).result = Except.ok (composeFullPrompt [] []) :=
  ⟨rfl, rfl, rfl, rfl, rfl⟩

/-- Claim C8 amended: `getPrompt` throws the prompt-load error exactly
when one of the two fetch responses is not ok; when both are ok it
composes and returns the full prompt from the fetched bodies, with no
emptiness check on the fragments. -/
theorem getPrompt_fails_iff_fetch_not_ok (env : PromptEnv) :
    (env.jsonRes.ok = false ∨ env.csvRes.ok = false →
      (getPromptRun env).result
        = Except.error (lc "Failed to load knowledge base data files.")) ∧
    (env.jsonRes.ok = true → env.csvRes.ok = true →
      (getPromptRun env).result
        = Except.ok (composeFullPrompt env.jsonRes.body env.csvRes.body)) := by
  constructor
  · intro h
    unfold getPromptRun
    rcases h with h | h <;> simp [h]
  · intro h1 h2
    unfold getPromptRun
    simp [h1, h2]

/-- Claim C8 amended witness: a failed fetch makes the call throw the
prompt-load error. -/
theorem getPrompt_fails_iff_fetch_not_ok_witness :
    (getPromptRun envFail).result
      = Except.error (lc "Failed to load knowledge base data files.") :=
  (getPrompt_fails_iff_fetch_not_ok envFail).1 (Or.inl rfl)

theorem jsOr_eq_some (a b : Option JVal) (v : JVal) (h : jsOr a b = some v) :
    truthyJ v = true ∨ b = some v := by
  cases a with
  | none => exact Or.inr h
  | some w =>
    by_cases hw : truthyJ w = true
    · left
      have hwv : w = v := by simpa [jsOr, hw] using h
      rw [← hwv]
      exact hw
    · right
      simpa [jsOr, hw] using h

theorem getValue_some_truthy (json : JVal) (lang : Lang) (key : String)
    (tr : Bool) (v : JVal) (h : getValue json lang key tr = some v) :
    truthyJ v = true := by
  unfold getValue at h
  by_cases hj : truthyJ json = false
  · rw [if_pos hj] at h; cases h
  · rw [if_neg hj] at h
    cases hk : json.getProp key with
    | none => rw [hk] at h; cases h
    | some w =>
      rw [hk] at h
      rw [getValueField] at h
      by_cases hw : truthyJ w = false
      · rw [if_pos hw] at h; cases h
      · rw [if_neg hw] at h
        cases tr with
        | false =>
          simp only [Bool.false_eq_true, if_false] at h
          cases h
          simpa using hw
        | true =>
          simp only [if_true] at h
          rcases jsOr_eq_some _ _ _ h with ht | h2
          · exact ht
          · rcases jsOr_eq_some _ _ _ h2 with ht | h3
            · exact ht
            · cases h3

/-- Claim C5: a language switch stores the new language, issues no
model request, and re-renders the rows from the analysis result
already held in state (unchanged by the switch) under the new
language; and a translatable field with no entry for the active
language resolves to its `en` entry. -/
theorem setLanguage_rerenders_with_fallback (s : AppState) (lang : Lang)
    (json v enV : JVal) (key : String)
    (hjson : truthyJ json = true)
    (hkey : json.getProp key = some v) (hv : truthyJ v = true)
    (hmiss : v.getProp (langKey lang) = none)
    (hen : v.getProp "en" = some enV) (henT : truthyJ enV = true) :
    ((setLanguageOp lang s).1).analysisData = s.analysisData ∧
    ((setLanguageOp lang s).1).currentLanguage = lang ∧
    (setLanguageOp lang s).2
      = [Effect.retranslateDom lang,
         Effect.render (displayAnalysisRows s.analysisData lang)] ∧
    (∀ e ∈ (setLanguageOp lang s).2, ∀ t i, e ≠ Effect.modelRequest t i) ∧
    getValue json lang key true = some enV := by
  refine ⟨rfl, rfl, rfl, ?_, ?_⟩
  · intro e he t i
    simp only [setLanguageOp, List.mem_cons, List.mem_singleton,
      List.not_mem_nil, or_false] at he
    rcases he with he | he <;> subst he <;> intro hcontra <;> cases hcontra
  · unfold getValue
    rw [if_neg (by simp [hjson]), hkey, getValueField,
      if_neg (by simp [hv]), if_pos rfl, hmiss, hen]
    simp [jsOr, henT]

/-- Claim C5 witness: switching to Bulgarian with a stored result and
an `en`-only pattern name. -/
theorem setLanguage_rerenders_with_fallback_witness :
    ((setLanguageOp Lang.bg sampleState).1).analysisData = sampleState.analysisData ∧
    ((setLanguageOp Lang.bg sampleState).1).currentLanguage = Lang.bg ∧
    (setLanguageOp Lang.bg sampleState).2
      = [Effect.retranslateDom Lang.bg,
         Effect.render (displayAnalysisRows sampleState.analysisData Lang.bg)] ∧
    (∀ e ∈ (setLanguageOp Lang.bg sampleState).2, ∀ t i, e ≠ Effect.modelRequest t i) ∧
    getValue jsonEnOnly Lang.bg "patternName" true = some (JVal.jstr (lc "Hammer")) :=
  setLanguage_rerenders_with_fallback sampleState Lang.bg jsonEnOnly fieldEnOnly
    (JVal.jstr (lc "Hammer")) "patternName" rfl rfl rfl rfl rfl rfl

/-- Claim C6 is contradicted by the code: a `PromptLoadError` (failed
knowledge-base fetch) is raised during the attempt, but the un-awaited
`getPrompt()` (index.ts line 61) turns it into a detached unhandled
promise rejection that never reaches the attempt's `catch` — no error
message is shown, the attempt proceeds to send the request with the
degenerate `[object Promise]` prompt, and the call can even succeed
and store a result.  This theorem evaluates the full attempt at a
concrete failing input: the prompt fetch fails, yet the effect trace
contains no `showError`, the error surfaces only as an unhandled
rejection, and a result is stored.  (Errors thrown by the awaited call
itself, e.g. a credential failure, do reach the catch; the getPrompt
error path is what falsifies the claim's "every error".) -/
theorem performAnalysis_uncaught_prompt_error :
    (getPromptRun envFail).result
        = Except.error (lc "Failed to load knowledge base data files.") ∧
    performAnalysisRun sampleState (lc "ctx") ((getPromptRun envFail).result)
        (CallOutcome.returned sampleResult)
      = ({ selectedImage := some sampleImage, currentLanguage := Lang.en,
           analysisData := some sampleResult, cachedPrompt := none },
         [Effect.showLoader, Effect.hideResults, Effect.hideError,
          Effect.disableAnalyze,
          Effect.modelRequest
            (lc "User-provided context: \"ctx\"\n\n[object Promise]")
            sampleImage,
          Effect.render (displayAnalysisRows (some sampleResult) Lang.en),
          Effect.showResults,
          Effect.hideLoader, Effect.enableAnalyze],
         [lc "Failed to load knowledge base data files."]) :=
  ⟨rfl, rfl⟩

/-- Claim C9 is contradicted by the code: `analyzeChart` returns each
chunk's whole `web` object — it neither reduces a source to the pair
`uri`/`title` nor drops entries lacking a `uri`.  On a chunk whose
`web` object has a `title` and an extra `vendor` field but no `uri`,
the returned sequence keeps that object unchanged. -/
theorem groundingSources_keep_no_uri :
    groundingSourcesOf (some [chunkNoUri]) = [webNoUri] ∧
    webNoUri.getProp "uri" = none ∧
    webNoUri.getProp "vendor" = some (JVal.jstr (lc "extra-field")) :=
  ⟨rfl, rfl, rfl⟩

/-- Claim C9 amended: the citation sources returned by `analyzeChart`
are exactly the truthy `web` properties of the grounding chunks,
passed through whole; chunks without a `web` property are dropped, but
entries lacking a `uri` stay in the returned sequence and are only
skipped later when the sources list is rendered. -/
theorem groundingSources_web_passthrough (chunks : List JVal) (v : JVal)
    (hv : v ∈ groundingSourcesOf (some chunks)) :
    truthyJ v = true ∧ (∃ c ∈ chunks, c.getProp "web" = some v) ∧
    (v.getProp "uri" = none →
      v ∉ renderedSources (groundingSourcesOf (some chunks))) := by
  unfold groundingSourcesOf at hv ⊢
  rw [List.mem_filterMap] at hv
  obtain ⟨o, ho, hfo⟩ := hv
  rw [List.mem_map] at ho
  obtain ⟨c, hc, rfl⟩ := ho
  cases hw : c.getProp "web" with
  | none => rw [hw] at hfo; cases hfo
  | some w =>
    rw [hw, keepTruthy] at hfo
    by_cases ht : truthyJ w = true
    · rw [if_pos ht] at hfo
      cases hfo
      refine ⟨ht, ⟨c, hc, hw⟩, ?_⟩
      intro hu hmem
      unfold renderedSources at hmem
      rw [List.mem_filter] at hmem
      have h2 := hmem.2
      rw [hu] at h2
      simp at h2
    · rw [if_neg ht] at hfo
      cases hfo

/-- Claim C9 amended witness: a well-formed web chunk's `web` object
is returned, whole and truthy. -/
theorem groundingSources_web_passthrough_witness :
    truthyJ sampleWeb = true ∧
    (∃ c ∈ sampleChunks, c.getProp "web" = some sampleWeb) ∧
    (sampleWeb.getProp "uri" = none →
      sampleWeb ∉ renderedSources (groundingSourcesOf (some sampleChunks))) :=
  groundingSources_web_passthrough sampleChunks sampleWeb
    (show sampleWeb ∈ [sampleWeb] from List.mem_singleton.mpr rfl)

/-- Claim C10: `displayAnalysis` renders a labeled row only for truthy
resolved values: every rendered row's value is truthy (so no label is
shown with a blank value), and no value resolves for a field absent
from the JSON, a field holding an empty string, a translatable field
holding a plain string, or a translatable field holding an object
with neither the active language's key nor the `en` key. -/
theorem displayAnalysis_truthy_only (json v : JVal) (lang : Lang)
    (key : String) (tr : Bool) (str0 : Str) (r : AnalysisResult) :
    (∀ row ∈ displayAnalysisRows (some r) lang, truthyJ row.2 = true) ∧
    (json.getProp key = none → getValue json lang key tr = none) ∧
    (json.getProp key = some (JVal.jstr []) → getValue json lang key tr = none) ∧
    (json.getProp key = some (JVal.jstr str0) → getValue json lang key true = none) ∧
    (json.getProp key = some v → v.getProp (langKey lang) = none →
      v.getProp "en" = none → getValue json lang key true = none) := by
  refine ⟨?_, ?_, ?_, ?_, ?_⟩
  · intro row hrow
    unfold displayAnalysisRows at hrow
    rw [List.mem_filterMap] at hrow
    obtain ⟨it, _, hit⟩ := hrow
    rw [Option.map_eq_some'] at hit
    obtain ⟨w, hw, hrw⟩ := hit
    have := getValue_some_truthy r.json lang it.2.1 it.2.2 w hw
    rw [← hrw]
    exact this
  · intro h
    unfold getValue
    by_cases hj : truthyJ json = false
    · rw [if_pos hj]
    · rw [if_neg hj, h, getValueField]
  · intro h
    unfold getValue
    by_cases hj : truthyJ json = false
    · rw [if_pos hj]
    · rw [if_neg hj, h, getValueField]
      rw [if_pos (show truthyJ (JVal.jstr []) = false from rfl)]
  · intro h
    unfold getValue
    by_cases hj : truthyJ json = false
    · rw [if_pos hj]
    · rw [if_neg hj, h, getValueField]
      by_cases hs : truthyJ (JVal.jstr str0) = false
      · rw [if_pos hs]
      · rw [if_neg hs, if_pos rfl]
        rfl
  · intro h hmiss hen
    unfold getValue
    by_cases hj : truthyJ json = false
    · rw [if_pos hj]
    · rw [if_neg hj, h, getValueField]
      by_cases hs : truthyJ v = false
      · rw [if_pos hs]
      · rw [if_neg hs, if_pos rfl, hmiss, hen]
        rfl

/-- Claim C10 witness: a translatable field holding a plain string and
an absent field both resolve to no row value. -/
theorem displayAnalysis_truthy_only_witness :
    getValue jsonPlain Lang.bg "patternName" true = none ∧
    getValue jsonPlain Lang.bg "missingKey" true = none :=
  ⟨(displayAnalysis_truthy_only jsonPlain JVal.jnull Lang.bg "patternName" true
      (lc "Hammer") sampleResult).2.2.2.1 rfl,
   (displayAnalysis_truthy_only jsonPlain JVal.jnull Lang.bg "missingKey" true
      [] sampleResult).2.1 rfl⟩

end RTT
